import Mathlib

/-!
Verification of the action-tree filtering and aggregation logic of the
RenderDocMCP repository.

The embedding follows `renderdoc_extension/utils/serializers.py`
(`Serializers.serialize_actions`, `Serializers.serialize_flags`),
`renderdoc_extension/utils/helpers.py` (`Helpers.count_children`) and
`renderdoc_extension/services/action_service.py`
(`ActionService.get_frame_summary`).

Modelling conventions:
- An action node is a finite tree node carrying the fields the code reads
  (`eventId`, `actionId`, name, `flags`, `numIndices`, `numInstances`,
  `children`).  Forests are modelled by a mutual inductive type so that all
  recursions are structural and computable.
- `flags` is a `Nat` bitmask.  The code only ever tests individual bits
  (`flags & rd.ActionFlags.X`), so each named flag is assigned a distinct
  bit, in the order of the `flag_map` table of `serialize_flags`.
- Python truthiness is preserved: an unset `marker_filter` is the empty
  string, an unset `exclude_markers` or `flags_filter` is the empty list,
  and the two event-id bounds are `Option Nat`, matching the
  `is not None` checks in the code.
- The output dictionaries of `serialize_actions` are modelled by `Item`;
  the optional `children` key (present exactly when the recursive result is
  non-empty) is modelled as a list field that is empty exactly when the key
  would be absent.
-/

/-- Filter configuration of `Serializers.serialize_actions`: one field per
keyword argument, with Python-falsy defaults represented directly. -/
structure Config : Type where
  include_children : Bool
  marker_filter : String
  exclude_markers : List String
  event_id_min : Option Nat
  event_id_max : Option Nat
  only_actions : Bool
  flags_filter : List String
deriving Repr, DecidableEq

mutual
/-- One recorded action: the fields of a RenderDoc action that
`serialize_actions` reads, with the resolved name inlined (the code obtains
it via `action.GetName(structured_file)`). -/
inductive ActionNode : Type where
  | mk (eventId actionId : Nat) (name : String) (flags : Nat)
       (numIndices numInstances : Nat) (children : ActionForest)

/-- A forest of action nodes (the `children` list / the root action list). -/
inductive ActionForest : Type where
  | nil
  | cons (a : ActionNode) (rest : ActionForest)
end

mutual
/-- One projected output node of `serialize_actions`: the dictionary
`{event_id, action_id, name, flags, num_indices, num_instances}` plus the
optional `children` entry (empty list when the key is absent). -/
inductive Item : Type where
  | mk (event_id action_id : Nat) (name : String) (flags : List String)
       (num_indices num_instances : Nat) (children : ItemList)

/-- A list of projected output nodes. -/
inductive ItemList : Type where
  | nil
  | cons (it : Item) (rest : ItemList)
end

/-- Append on output lists (Python `serialized.extend` / `append`). -/
def appendI : ItemList → ItemList → ItemList
  | .nil, ys => ys
  | .cons x xs, ys => .cons x (appendI xs ys)

/-- Emptiness test for a forest (Python truthiness of `action.children`). -/
def isEmptyF : ActionForest → Bool
  | .nil => true
  | .cons _ _ => false

/-- Emptiness test for an output list (Python truthiness of the result). -/
def isEmptyI : ItemList → Bool
  | .nil => true
  | .cons _ _ => false

/-- Initial-segment test on character lists: `startsL p t` holds when `t`
begins with `p`. -/
def startsL : List Char → List Char → Bool
  | [], _ => true
  | _ :: _, [] => false
  | c :: cs, d :: ds => c == d && startsL cs ds

/-- Substring containment on character lists (Python `p in t`). -/
def subL (p : List Char) : List Char → Bool
  | [] => startsL p []
  | c :: cs => startsL p (c :: cs) || subL p cs

/-- Substring containment on strings (Python `p in t`). -/
def substrB (p t : String) : Bool := subL p.toList t.toList

/-- Bit of `rd.ActionFlags.PushMarker` in the modelled bitmask. -/
def isPushB (f : Nat) : Bool := f &&& 8 != 0

/-- Bit of `rd.ActionFlags.SetMarker` in the modelled bitmask. -/
def isSetB (f : Nat) : Bool := f &&& 32 != 0

/-- Bit of `rd.ActionFlags.PopMarker` in the modelled bitmask. -/
def isPopB (f : Nat) : Bool := f &&& 16 != 0

/-- The `is_marker` test of `serialize_actions`:
`is_push_marker or is_set_marker or is_pop_marker`. -/
def isMarkerB (f : Nat) : Bool := isPushB f || isSetB f || isPopB f

/-- The `flag_map` table of `Serializers.serialize_flags`, in source order,
with each `rd.ActionFlags` value modelled as a distinct bit. -/
def flagMap : List (Nat × String) :=
  [(1, "Drawcall"), (2, "Dispatch"), (4, "Clear"), (8, "PushMarker"),
   (16, "PopMarker"), (32, "SetMarker"), (64, "Present"), (128, "Copy"),
   (256, "Resolve"), (512, "GenMips"), (1024, "PassBoundary"),
   (2048, "Indexed"), (4096, "Instanced"), (8192, "Auto"),
   (16384, "Indirect"), (32768, "ClearColor"), (65536, "ClearDepthStencil"),
   (131072, "BeginPass"), (262144, "EndPass")]

/-- `Serializers.serialize_flags`: walk `flag_map` in order and collect the
name of every flag whose bit is set. -/
def serialize_flags (flags : Nat) : List String :=
  flagMap.filterMap (fun p => if flags &&& p.1 != 0 then some p.2 else none)

/-- Step 1 of `serialize_actions`: the `exclude_markers` subtree
suppression test (`if exclude_markers and is_marker: if any(ex in name
for ex in exclude_markers): continue`). -/
def excludedB (cfg : Config) (name : String) (flags : Nat) : Bool :=
  !cfg.exclude_markers.isEmpty && isMarkerB flags &&
    cfg.exclude_markers.any (fun ex => substrB ex name)

/-- Step 2 of `serialize_actions`: the `in_matching` value propagated to the
children of this node (`in_matching = _in_matching_marker`, set to true when
a configured `marker_filter` occurs in the name of a Push-type marker). -/
def childScope (cfg : Config) (inM : Bool) (name : String) (flags : Nat) : Bool :=
  inM || (cfg.marker_filter != "" && isPushB flags && substrB cfg.marker_filter name)

/-- Step 3 of `serialize_actions`: the `in_range` value — markers are exempt,
a non-marker needs `event_id_min <= eventId <= event_id_max` where each bound
applies only when configured. -/
def inRangeB (cfg : Config) (flags : Nat) (eventId : Nat) : Bool :=
  if isMarkerB flags then true
  else
    (match cfg.event_id_min with
     | none => true
     | some m => !decide (eventId < m)) &&
    (match cfg.event_id_max with
     | none => true
     | some m => !decide (m < eventId))

/-- Step 5 of `serialize_actions`: the `flags_filter` skip condition for
non-markers (`if flags_filter_set and not is_marker: if not any(...)`). -/
def flagsSkipB (cfg : Config) (flags : Nat) : Bool :=
  !cfg.flags_filter.isEmpty && !isMarkerB flags &&
    !((serialize_flags flags).any (fun n => cfg.flags_filter.contains n))

/-- Step 6 of `serialize_actions`: `passes_marker_filter = not marker_filter
or in_matching`. -/
def passesMarkerB (cfg : Config) (inMatching : Bool) : Bool :=
  cfg.marker_filter == "" || inMatching

/-- `Serializers.serialize_actions`: recursive filter and projection of an
action forest, following the per-node steps of the source in order —
exclude-markers suppression, scope propagation, range test, `only_actions`
splicing, flags filter, recursive children, inclusion decision, projection.
`inM` is the `_in_matching_marker` argument. -/
def serialize_actions (cfg : Config) (inM : Bool) : ActionForest → ItemList
  | .nil => .nil
  | .cons (.mk eid aid name flags ni nin children) rest =>
      appendI
        (if excludedB cfg name flags then .nil
         else
           let inMatching := childScope cfg inM name flags
           if cfg.only_actions && isMarkerB flags then
             (if cfg.include_children && !isEmptyF children then
                serialize_actions cfg inMatching children
              else .nil)
           else if flagsSkipB cfg flags then .nil
           else
             let childrenResult :=
               if cfg.include_children && !isEmptyF children then
                 serialize_actions cfg inMatching children
               else .nil
             let shouldInclude :=
               if isMarkerB flags then
                 !isEmptyI childrenResult && passesMarkerB cfg inMatching
               else
                 inRangeB cfg flags eid && passesMarkerB cfg inMatching
             if shouldInclude then
               .cons (.mk eid aid name (serialize_flags flags) ni nin childrenResult) .nil
             else .nil)
        (serialize_actions cfg inM rest)

/-- Marker detection on a projected item, from its serialized flag names:
an output node is a marker when its `flags` list names a marker bit. -/
def isMarkerNames (fl : List String) : Bool :=
  decide ("PushMarker" ∈ fl) || decide ("SetMarker" ∈ fl) || decide ("PopMarker" ∈ fl)

/-- Pre-order list of the `event_id` values of all non-marker items of an
output, descending into `children`. -/
def leafIds : ItemList → List Nat
  | .nil => []
  | .cons (.mk eid _ _ fl _ _ ch) rest =>
      (if isMarkerNames fl then [] else [eid]) ++ leafIds ch ++ leafIds rest

/-- Checks that every marker item of an output has a non-empty `children`
list, recursively. -/
def markersNonEmptyB : ItemList → Bool
  | .nil => true
  | .cons (.mk _ _ _ fl _ _ ch) rest =>
      (!isMarkerNames fl || !isEmptyI ch) && markersNonEmptyB ch && markersNonEmptyB rest

/-- Checks that no item of an output, marker or not, has a name containing
the substring `ex` (the literal reading of the exclude guarantee). -/
def allNamesAvoidB (ex : String) : ItemList → Bool
  | .nil => true
  | .cons (.mk _ _ nm _ _ _ ch) rest =>
      !substrB ex nm && allNamesAvoidB ex ch && allNamesAvoidB ex rest

/-- Checks that no marker item of an output has a name containing the
substring `ex`. -/
def noExMarkerB (ex : String) : ItemList → Bool
  | .nil => true
  | .cons (.mk _ _ nm fl _ _ ch) rest =>
      !(isMarkerNames fl && substrB ex nm) && noExMarkerB ex ch && noExMarkerB ex rest

/-- Removes from a forest every marker subtree suppressed by the
`exclude_markers` test of the configuration, recursively. -/
def pruneExcluded (cfg : Config) : ActionForest → ActionForest
  | .nil => .nil
  | .cons (.mk eid aid nm fl ni nin ch) rest =>
      if excludedB cfg nm fl then pruneExcluded cfg rest
      else .cons (.mk eid aid nm fl ni nin (pruneExcluded cfg ch))
             (pruneExcluded cfg rest)

/-- The identity projection of a forest: every node rendered with its
serialized flags and all children kept — the shape the spec calls
"isomorphic to F". -/
def projectAll : ActionForest → ItemList
  | .nil => .nil
  | .cons (.mk eid aid nm fl ni nin ch) rest =>
      .cons (.mk eid aid nm (serialize_flags fl) ni nin (projectAll ch)) (projectAll rest)

/-- Holds when some node of the forest, at any depth, is a non-marker. -/
def containsLeaf : ActionForest → Bool
  | .nil => false
  | .cons (.mk _ _ _ fl _ _ ch) rest =>
      !isMarkerB fl || containsLeaf ch || containsLeaf rest

/-- Holds when every marker node of the forest, at any depth, has at least
one non-marker node in its subtree. -/
def allMarkersHaveLeaf : ActionForest → Bool
  | .nil => true
  | .cons (.mk _ _ _ fl _ _ ch) rest =>
      (!isMarkerB fl || containsLeaf ch) && allMarkersHaveLeaf ch && allMarkersHaveLeaf rest

/-- The behaviour claimed for `include_children=False`: keep exactly the
root-level non-markers that pass the flags, range and scope gates, in
order, each projected with no `children` entry. -/
def rootOnlyProjection (cfg : Config) (inM : Bool) : ActionForest → ItemList
  | .nil => .nil
  | .cons (.mk eid aid nm fl ni nin _) rest =>
      if !isMarkerB fl && !flagsSkipB cfg fl && inRangeB cfg fl eid &&
           passesMarkerB cfg inM then
        .cons (.mk eid aid nm (serialize_flags fl) ni nin .nil)
          (rootOnlyProjection cfg inM rest)
      else rootOnlyProjection cfg inM rest

/-- The statistics counters of `ActionService.get_frame_summary`, plus the
`total_actions` counter. -/
structure FrameStats : Type where
  draw_calls : Nat
  dispatches : Nat
  clears : Nat
  copies : Nat
  presents : Nat
  markers : Nat
  total : Nat
deriving Repr, DecidableEq

/-- All-zero counters (the initial `stats` dictionary and `total_actions`). -/
def statsInit : FrameStats := ⟨0, 0, 0, 0, 0, 0, 0⟩

/-- One step of `count_actions`: the per-node increments applied to the
counters, one per category bit present in `flags` (markers count on
PushMarker or SetMarker). -/
def bumpStats (s : FrameStats) (f : Nat) : FrameStats :=
  { draw_calls := s.draw_calls + (if f &&& 1 != 0 then 1 else 0)
    dispatches := s.dispatches + (if f &&& 2 != 0 then 1 else 0)
    clears := s.clears + (if f &&& 4 != 0 then 1 else 0)
    copies := s.copies + (if f &&& 128 != 0 then 1 else 0)
    presents := s.presents + (if f &&& 64 != 0 then 1 else 0)
    markers := s.markers + (if f &&& 40 != 0 then 1 else 0)
    total := s.total + 1 }

/-- The `count_actions` traversal of `get_frame_summary`: full pre-order
walk, bumping the counters at every node and recursing into children. -/
def countActions : ActionForest → FrameStats → FrameStats
  | .nil, s => s
  | .cons (.mk _ _ _ fl _ _ ch) rest, s =>
      countActions rest (countActions ch (bumpStats s fl))

/-- Recursive node count of a forest, as summed by `Helpers.count_children`
(`count += 1 + count_children(child)` per child). -/
def countF : ActionForest → Nat
  | .nil => 0
  | .cons (.mk _ _ _ _ _ _ ch) rest => 1 + countF ch + countF rest

/-- `Helpers.count_children`: total number of descendants of one action. -/
def count_children : ActionNode → Nat
  | .mk _ _ _ _ _ _ ch => countF ch

/-- One `top_level_markers` entry of `get_frame_summary`. -/
structure TopMarker : Type where
  name : String
  event_id : Nat
  child_count : Nat
deriving Repr, DecidableEq

/-- The `top_level_markers` computation of `get_frame_summary`: every direct
root whose flags carry the PushMarker bit, with its recursive child count. -/
def topLevelMarkers : ActionForest → List TopMarker
  | .nil => []
  | .cons (.mk eid _ nm fl _ _ ch) rest =>
      (if isPushB fl then [⟨nm, eid, countF ch⟩] else []) ++ topLevelMarkers rest

theorem appendI_nil_left (ys : ItemList) : appendI .nil ys = ys := rfl

theorem appendI_nil_right : (xs : ItemList) → appendI xs .nil = xs
  | .nil => rfl
  | .cons x xs => by simp [appendI, appendI_nil_right xs]

theorem isEmptyI_appendI (xs ys : ItemList) :
    isEmptyI (appendI xs ys) = (isEmptyI xs && isEmptyI ys) := by
  cases xs with
  | nil => cases ys <;> simp [appendI, isEmptyI]
  | cons x xs => simp [appendI, isEmptyI]

theorem isEmptyI_eq_nil : (xs : ItemList) → isEmptyI xs = true → xs = .nil
  | .nil, _ => rfl

theorem mem_serialize_flags_push (f : Nat) :
    "PushMarker" ∈ serialize_flags f ↔ (f &&& 8 != 0) = true := by
  simp [serialize_flags, flagMap, List.mem_filterMap, Option.ite_none_right_eq_some]

theorem mem_serialize_flags_set (f : Nat) :
    "SetMarker" ∈ serialize_flags f ↔ (f &&& 32 != 0) = true := by
  simp [serialize_flags, flagMap, List.mem_filterMap, Option.ite_none_right_eq_some]

theorem mem_serialize_flags_pop (f : Nat) :
    "PopMarker" ∈ serialize_flags f ↔ (f &&& 16 != 0) = true := by
  simp [serialize_flags, flagMap, List.mem_filterMap, Option.ite_none_right_eq_some]

theorem isMarkerNames_serialize (f : Nat) :
    isMarkerNames (serialize_flags f) = isMarkerB f := by
  rw [Bool.eq_iff_iff]
  simp [isMarkerNames, isMarkerB, isPushB, isSetB, isPopB,
    mem_serialize_flags_push, mem_serialize_flags_set, mem_serialize_flags_pop]

theorem leafIds_appendI (xs ys : ItemList) :
    leafIds (appendI xs ys) = leafIds xs ++ leafIds ys := by
  induction xs using leafIds.induct with
  | case1 => simp [appendI, leafIds]
  | case2 eid aid nm fl ni nin ch rest ih1 ih2 =>
      simp [appendI, leafIds, ih2]

/-- C8: a bitmask with the Drawcall, Indexed and Instanced bits set and no
other mapped bit set serializes to exactly that fixed table order; unmapped
bits are ignored. -/
theorem serialize_flags_draw_indexed_instanced (f : Nat)
    (hDraw : (f &&& 1 != 0) = true)
    (hIdx : (f &&& 2048 != 0) = true)
    (hInst : (f &&& 4096 != 0) = true)
    (h2 : (f &&& 2 != 0) = false) (h4 : (f &&& 4 != 0) = false)
    (h8 : (f &&& 8 != 0) = false) (h16 : (f &&& 16 != 0) = false)
    (h32 : (f &&& 32 != 0) = false) (h64 : (f &&& 64 != 0) = false)
    (h128 : (f &&& 128 != 0) = false) (h256 : (f &&& 256 != 0) = false)
    (h512 : (f &&& 512 != 0) = false) (h1024 : (f &&& 1024 != 0) = false)
    (h8192 : (f &&& 8192 != 0) = false) (h16384 : (f &&& 16384 != 0) = false)
    (h32768 : (f &&& 32768 != 0) = false) (h65536 : (f &&& 65536 != 0) = false)
    (h131072 : (f &&& 131072 != 0) = false)
    (h262144 : (f &&& 262144 != 0) = false) :
    serialize_flags f = ["Drawcall", "Indexed", "Instanced"] := by
  have d1 : f % 2 ≠ 0 := by rw [← Nat.and_one_is_mod]; simpa using hDraw
  have d2 : f &&& 2048 ≠ 0 := by simpa using hIdx
  have d3 : f &&& 4096 ≠ 0 := by simpa using hInst
  have e2 : f &&& 2 = 0 := by simpa using h2
  have e4 : f &&& 4 = 0 := by simpa using h4
  have e8 : f &&& 8 = 0 := by simpa using h8
  have e16 : f &&& 16 = 0 := by simpa using h16
  have e32 : f &&& 32 = 0 := by simpa using h32
  have e64 : f &&& 64 = 0 := by simpa using h64
  have e128 : f &&& 128 = 0 := by simpa using h128
  have e256 : f &&& 256 = 0 := by simpa using h256
  have e512 : f &&& 512 = 0 := by simpa using h512
  have e1024 : f &&& 1024 = 0 := by simpa using h1024
  have e8192 : f &&& 8192 = 0 := by simpa using h8192
  have e16384 : f &&& 16384 = 0 := by simpa using h16384
  have e32768 : f &&& 32768 = 0 := by simpa using h32768
  have e65536 : f &&& 65536 = 0 := by simpa using h65536
  have e131072 : f &&& 131072 = 0 := by simpa using h131072
  have e262144 : f &&& 262144 = 0 := by simpa using h262144
  simp [serialize_flags, flagMap, List.filterMap_cons, d1, d2, d3, e2, e4,
    e8, e16, e32, e64, e128, e256, e512, e1024, e8192, e16384, e32768,
    e65536, e131072, e262144]

/-- Witness for C8 at the mask with Drawcall, Indexed, Instanced and one
unmapped high bit set. -/
theorem serialize_flags_draw_indexed_instanced_witness :
    (530433 &&& 1 != 0) = true ∧
    serialize_flags 530433 = ["Drawcall", "Indexed", "Instanced"] :=
  ⟨by decide,
   serialize_flags_draw_indexed_instanced 530433 (by decide) (by decide)
     (by decide) (by decide) (by decide) (by decide) (by decide) (by decide)
     (by decide) (by decide) (by decide) (by decide) (by decide) (by decide)
     (by decide) (by decide) (by decide) (by decide) (by decide)⟩

/-- C9: frame summary of a forest with one root Push marker named Pass1
containing two draw calls — one top-level marker entry with recursive child
count 2, one marker increment, two draw-call increments. -/
theorem frame_summary_pass1_scenario
    (e a ni nin e1 a1 ni1 nin1 e2 a2 ni2 nin2 : Nat) (n1 n2 : String) :
    topLevelMarkers (.cons (.mk e a "Pass1" 8 ni nin
        (.cons (.mk e1 a1 n1 1 ni1 nin1 .nil)
          (.cons (.mk e2 a2 n2 1 ni2 nin2 .nil) .nil))) .nil) =
      [⟨"Pass1", e, 2⟩] ∧
    (countActions (.cons (.mk e a "Pass1" 8 ni nin
        (.cons (.mk e1 a1 n1 1 ni1 nin1 .nil)
          (.cons (.mk e2 a2 n2 1 ni2 nin2 .nil) .nil))) .nil) statsInit).markers = 1 ∧
    (countActions (.cons (.mk e a "Pass1" 8 ni nin
        (.cons (.mk e1 a1 n1 1 ni1 nin1 .nil)
          (.cons (.mk e2 a2 n2 1 ni2 nin2 .nil) .nil))) .nil) statsInit).draw_calls = 2 := by
  refine ⟨?_, ?_, ?_⟩ <;>
    simp [topLevelMarkers, countActions, bumpStats, statsInit, countF, isPushB]

theorem latch_aux (cfg : Config) :
    (F : ActionForest) →
      serialize_actions cfg true F =
        serialize_actions {cfg with marker_filter := ""} false F
  | .nil => rfl
  | .cons (.mk eid aid nm fl ni nin ch) rest => by
      have ihc := latch_aux cfg ch
      have ihr := latch_aux cfg rest
      have hcs1 : childScope cfg true nm fl = true := by simp [childScope]
      have hcs2 : childScope {cfg with marker_filter := ""} false nm fl = false := by
        simp [childScope]
      have hpm1 : passesMarkerB cfg true = true := by simp [passesMarkerB]
      have hpm2 : passesMarkerB {cfg with marker_filter := ""} false = true := by
        simp [passesMarkerB]
      have hex : excludedB {cfg with marker_filter := ""} nm fl = excludedB cfg nm fl := by
        simp [excludedB]
      have hfs : flagsSkipB {cfg with marker_filter := ""} fl = flagsSkipB cfg fl := by
        simp [flagsSkipB]
      have hir : inRangeB {cfg with marker_filter := ""} fl eid = inRangeB cfg fl eid := by
        simp [inRangeB]
      simp only [serialize_actions, hcs1, hcs2, hpm1, hpm2, hex, hfs, hir, ihc, ihr]

/-- C4: the scope flag is a one-way latch — once inside a matching marker
scope, filtering behaves for the whole subtree exactly as if no
`marker_filter` were configured (it is never reset, in particular not by
Pop-type markers); and on the forest Push A with child eid 1 next to a
root draw eid 2, filtering by marker A yields exactly the A marker wrapping
the eid 1 draw. -/
theorem marker_scope_latch :
    (∀ (cfg : Config) (F : ActionForest),
      serialize_actions cfg true F =
        serialize_actions {cfg with marker_filter := ""} false F) ∧
    serialize_actions ⟨true, "A", [], none, none, false, []⟩ false
      (.cons (.mk 10 1 "A" 8 0 0 (.cons (.mk 1 1 "d1" 1 3 1 .nil) .nil))
        (.cons (.mk 2 2 "d2" 1 3 1 .nil) .nil)) =
      .cons (.mk 10 1 "A" ["PushMarker"] 0 0
        (.cons (.mk 1 1 "d1" ["Drawcall"] 3 1 .nil) .nil)) .nil :=
  ⟨fun cfg F => latch_aux cfg F, rfl⟩

theorem empty_range_aux (cfg : Config) (m M : Nat)
    (hmin : cfg.event_id_min = some m) (hmax : cfg.event_id_max = some M)
    (hlt : M < m) :
    (inM : Bool) → (F : ActionForest) → serialize_actions cfg inM F = .nil
  | _, .nil => rfl
  | inM, .cons (.mk eid aid nm fl ni nin ch) rest => by
      have ihc := empty_range_aux cfg m M hmin hmax hlt (childScope cfg inM nm fl) ch
      have ihr := empty_range_aux cfg m M hmin hmax hlt inM rest
      simp only [serialize_actions, ihc, ihr]
      by_cases hm : isMarkerB fl
      · simp [hm, isEmptyI, appendI_nil_right]
      · have hr : inRangeB cfg fl eid = false := by
          simp only [inRangeB, hm, Bool.false_eq_true, if_false, hmin, hmax]
          rcases Nat.lt_or_ge eid m with h | h
          · simp [h]
          · have h2 : M < eid := by omega
            simp [h2]
        simp [hm, hr, isEmptyI, appendI_nil_right]

/-- C7: a configuration with `event_id_min` strictly greater than
`event_id_max` is accepted and denotes the empty range — every forest
filters to the empty output. -/
theorem empty_range_yields_empty (cfg : Config) (inM : Bool) (F : ActionForest)
    (m M : Nat) (hmin : cfg.event_id_min = some m)
    (hmax : cfg.event_id_max = some M) (hlt : M < m) :
    serialize_actions cfg inM F = .nil :=
  empty_range_aux cfg m M hmin hmax hlt inM F

/-- Witness for C7: min 5, max 3, a one-draw forest, empty output. -/
theorem empty_range_yields_empty_witness :
    (⟨true, "", [], some 5, some 3, false, []⟩ : Config).event_id_min = some 5 ∧
    (⟨true, "", [], some 5, some 3, false, []⟩ : Config).event_id_max = some 3 ∧
    3 < 5 ∧
    serialize_actions ⟨true, "", [], some 5, some 3, false, []⟩ false
      (.cons (.mk 4 4 "d" 1 0 0 .nil) .nil) = .nil :=
  ⟨rfl, rfl, by decide,
   empty_range_yields_empty ⟨true, "", [], some 5, some 3, false, []⟩ false
     (.cons (.mk 4 4 "d" 1 0 0 .nil) .nil) 5 3 rfl rfl (by decide)⟩

theorem markersNonEmptyB_appendI (xs ys : ItemList) :
    markersNonEmptyB (appendI xs ys) = (markersNonEmptyB xs && markersNonEmptyB ys) := by
  induction xs using markersNonEmptyB.induct with
  | case1 => simp [appendI, markersNonEmptyB]
  | case2 eid aid nm fl ni nin ch rest ih1 ih2 =>
      simp [appendI, markersNonEmptyB, ih2, Bool.and_assoc]

theorem markersNonEmptyB_single (eid aid : Nat) (nm : String) (fl : List String)
    (ni nin : Nat) (cr : ItemList)
    (h1 : isMarkerNames fl = false ∨ isEmptyI cr = false)
    (h2 : markersNonEmptyB cr = true) :
    markersNonEmptyB (.cons (.mk eid aid nm fl ni nin cr) .nil) = true := by
  rcases h1 with h | h <;> simp [markersNonEmptyB, h, h2]

theorem c5_aux (cfg : Config) :
    (inM : Bool) → (F : ActionForest) →
      markersNonEmptyB (serialize_actions cfg inM F) = true
  | _, .nil => rfl
  | inM, .cons (.mk eid aid nm fl ni nin ch) rest => by
      have ihc := c5_aux cfg (childScope cfg inM nm fl) ch
      have ihr := c5_aux cfg inM rest
      simp only [serialize_actions, markersNonEmptyB_appendI, ihr, Bool.and_true]
      by_cases hex : excludedB cfg nm fl
      · simp [hex, markersNonEmptyB]
      · simp only [hex, Bool.false_eq_true, if_false]
        by_cases hoa : cfg.only_actions && isMarkerB fl
        · by_cases hg : cfg.include_children && !isEmptyF ch
          · simp [hoa, hg, ihc]
          · simp [hoa, hg, markersNonEmptyB]
        · by_cases hfs : flagsSkipB cfg fl
          · simp [hoa, hfs, markersNonEmptyB]
          · by_cases hg : cfg.include_children && !isEmptyF ch
            · simp only [hoa, hfs, hg, Bool.false_eq_true, if_false, if_true]
              by_cases hm : isMarkerB fl
              · simp only [hm, if_true]
                split
                · next hinc =>
                    simp only [Bool.and_eq_true] at hinc
                    refine markersNonEmptyB_single _ _ _ _ _ _ _ (Or.inr ?_) ihc
                    simpa using hinc.1
                · rfl
              · simp only [hm, Bool.false_eq_true, if_false]
                split
                · refine markersNonEmptyB_single _ _ _ _ _ _ _ (Or.inl ?_) ihc
                  rw [isMarkerNames_serialize]
                  simpa using hm
                · rfl
            · simp only [hoa, hfs, hg, Bool.false_eq_true, if_false]
              by_cases hm : isMarkerB fl
              · simp [hm, isEmptyI, markersNonEmptyB]
              · simp only [hm, Bool.false_eq_true, if_false]
                split
                · refine markersNonEmptyB_single _ _ _ _ _ _ _ (Or.inl ?_) rfl
                  rw [isMarkerNames_serialize]
                  simpa using hm
                · rfl

/-- C5: in every output of the filter, under every configuration, a marker
item always carries a non-empty children list — a marker whose recursively
filtered children are empty (in particular a childless marker) is never
emitted. -/
theorem marker_never_empty_in_output (cfg : Config) (inM : Bool) (F : ActionForest) :
    markersNonEmptyB (serialize_actions cfg inM F) = true :=
  c5_aux cfg inM F

/-- The body of `serialize_actions` for a single action (the per-node steps
of the loop), shared by the proofs below; `serialize_actions` on a cons cell
is definitionally this head appended to the tail. -/
def serializeNode (cfg : Config) (inM : Bool) (eid aid : Nat) (nm : String)
    (fl ni nin : Nat) (ch : ActionForest) : ItemList :=
  if excludedB cfg nm fl then .nil
  else
    let inMatching := childScope cfg inM nm fl
    if cfg.only_actions && isMarkerB fl then
      (if cfg.include_children && !isEmptyF ch then
         serialize_actions cfg inMatching ch
       else .nil)
    else if flagsSkipB cfg fl then .nil
    else
      let childrenResult :=
        if cfg.include_children && !isEmptyF ch then
          serialize_actions cfg inMatching ch
        else .nil
      let shouldInclude :=
        if isMarkerB fl then
          !isEmptyI childrenResult && passesMarkerB cfg inMatching
        else
          inRangeB cfg fl eid && passesMarkerB cfg inMatching
      if shouldInclude then
        .cons (.mk eid aid nm (serialize_flags fl) ni nin childrenResult) .nil
      else .nil

theorem serialize_actions_cons (cfg : Config) (inM : Bool) (eid aid : Nat)
    (nm : String) (fl ni nin : Nat) (ch rest : ActionForest) :
    serialize_actions cfg inM (.cons (.mk eid aid nm fl ni nin ch) rest) =
      appendI (serializeNode cfg inM eid aid nm fl ni nin ch)
        (serialize_actions cfg inM rest) := rfl

theorem isEmptyI_nil : isEmptyI .nil = true := rfl

theorem isEmptyI_cons (x : Item) (xs : ItemList) : isEmptyI (.cons x xs) = false := rfl

theorem isEmptyF_nil : isEmptyF .nil = true := rfl

theorem isEmptyF_cons (a : ActionNode) (rest : ActionForest) :
    isEmptyF (.cons a rest) = false := rfl

theorem range_marker_aux (mn mx : Option Nat) (inM : Bool)
    (eid aid : Nat) (nm : String) (fl ni nin : Nat) (ch : ActionForest)
    (hm : isMarkerB fl = true) :
    isEmptyI (serialize_actions ⟨true, "", [], mn, mx, false, []⟩ inM
        (.cons (.mk eid aid nm fl ni nin ch) .nil)) =
      isEmptyI (serialize_actions ⟨true, "", [], mn, mx, false, []⟩ inM ch) := by
  rw [serialize_actions_cons]
  have htail : serialize_actions ⟨true, "", [], mn, mx, false, []⟩ inM .nil = .nil := rfl
  rw [htail, appendI_nil_right]
  simp only [serializeNode, excludedB, flagsSkipB, passesMarkerB, childScope, hm]
  cases ch with
  | nil =>
      simp [isEmptyF_nil, isEmptyI_nil, serialize_actions]
  | cons a rest =>
      simp only [isEmptyF_cons, Bool.not_false, Bool.and_true, Bool.and_self,
        List.isEmpty_nil, Bool.not_true, Bool.false_and, Bool.and_false,
        Bool.false_eq_true, if_false, if_true, Bool.or_true]
      by_cases hc : isEmptyI (serialize_actions
          ⟨true, "", [], mn, mx, false, []⟩ inM (.cons a rest))
      · simp [hc, isEmptyI_nil]
      · simp only [Bool.not_eq_true] at hc
        simp [hc, isEmptyI_cons]

/-- C6: under a pure range configuration a marker node is excluded exactly
when none of its descendants survives (its own event id is never consulted);
and on the forest Push A with child eid 1 next to a root draw eid 2,
`event_id_min = 2` yields exactly the eid 2 draw. -/
theorem range_never_excludes_marker :
    (∀ (mn mx : Option Nat) (inM : Bool) (eid aid : Nat) (nm : String)
       (fl ni nin : Nat) (ch : ActionForest), isMarkerB fl = true →
       isEmptyI (serialize_actions ⟨true, "", [], mn, mx, false, []⟩ inM
           (.cons (.mk eid aid nm fl ni nin ch) .nil)) =
         isEmptyI (serialize_actions ⟨true, "", [], mn, mx, false, []⟩ inM ch)) ∧
    serialize_actions ⟨true, "", [], some 2, none, false, []⟩ false
      (.cons (.mk 10 1 "A" 8 0 0 (.cons (.mk 1 1 "d1" 1 3 1 .nil) .nil))
        (.cons (.mk 2 2 "d2" 1 3 1 .nil) .nil)) =
      .cons (.mk 2 2 "d2" ["Drawcall"] 3 1 .nil) .nil :=
  ⟨fun mn mx inM eid aid nm fl ni nin ch hm =>
     range_marker_aux mn mx inM eid aid nm fl ni nin ch hm, rfl⟩

/-- Witness for C6 at a concrete Push marker (flags 8) whose only child is
out of range: both sides of the equivalence evaluate on a real input. -/
theorem range_never_excludes_marker_witness :
    isMarkerB 8 = true ∧
    isEmptyI (serialize_actions ⟨true, "", [], some 2, none, false, []⟩ false
        (.cons (.mk 10 1 "A" 8 0 0 (.cons (.mk 1 1 "d1" 1 3 1 .nil) .nil)) .nil)) =
      isEmptyI (serialize_actions ⟨true, "", [], some 2, none, false, []⟩ false
        (.cons (.mk 1 1 "d1" 1 3 1 .nil) .nil)) :=
  ⟨by decide,
   range_never_excludes_marker.1 (some 2) none false 10 1 "A" 8 0 0
     (.cons (.mk 1 1 "d1" 1 3 1 .nil) .nil) (by decide)⟩

theorem isPushB_of_not_marker (f : Nat) (hm : isMarkerB f = false) :
    isPushB f = false := by
  simp only [isMarkerB, Bool.or_eq_false_iff] at hm
  exact hm.1.1

theorem childScope_of_not_marker (cfg : Config) (inM : Bool) (nm : String)
    (fl : Nat) (hm : isMarkerB fl = false) :
    childScope cfg inM nm fl = inM := by
  simp [childScope, isPushB_of_not_marker fl hm]

theorem no_children_aux (cfg : Config) (h : cfg.include_children = false) (inM : Bool) :
    (F : ActionForest) →
      serialize_actions cfg inM F = rootOnlyProjection cfg inM F
  | .nil => rfl
  | .cons (.mk eid aid nm fl ni nin ch) rest => by
      have ihr := no_children_aux cfg h inM rest
      rw [serialize_actions_cons, ihr]
      simp only [rootOnlyProjection]
      by_cases hm : isMarkerB fl
      · have hskip : flagsSkipB cfg fl = false := by simp [flagsSkipB, hm]
        by_cases hex : excludedB cfg nm fl
        · simp [serializeNode, hex, hm, appendI]
        · by_cases hoa : cfg.only_actions
          · simp [serializeNode, hex, hskip, hm, hoa, h, appendI]
          · simp [serializeNode, hex, hskip, hm, hoa, h, appendI, isEmptyI]
      · have hex : excludedB cfg nm fl = false := by simp [excludedB, hm]
        have hcs := childScope_of_not_marker cfg inM nm fl (by simpa using hm)
        by_cases hfs : flagsSkipB cfg fl
        · simp [serializeNode, hex, hfs, hm, h, appendI]
        · by_cases hir : inRangeB cfg fl eid
          · by_cases hpm : passesMarkerB cfg inM
            · simp [serializeNode, hex, hfs, hm, h, hcs, hir, hpm, appendI]
            · simp [serializeNode, hex, hfs, hm, h, hcs, hir, hpm, appendI]
          · simp [serializeNode, hex, hfs, hm, h, hcs, hir, appendI]

/-- C10: with `include_children` false the output never contains a marker
item nor any `children` entry — it is exactly the root-level non-marker
actions that pass the flags, range and scope gates, in original order,
each projected without children. -/
theorem no_children_flattens_to_roots (cfg : Config) (inM : Bool)
    (F : ActionForest) (h : cfg.include_children = false) :
    serialize_actions cfg inM F = rootOnlyProjection cfg inM F :=
  no_children_aux cfg h inM F

/-- Witness for C10: a marker with a child and a root draw, filtered with
`include_children` false, leaving only the root draw. -/
theorem no_children_flattens_to_roots_witness :
    (⟨false, "", [], none, none, false, []⟩ : Config).include_children = false ∧
    serialize_actions ⟨false, "", [], none, none, false, []⟩ false
      (.cons (.mk 10 1 "A" 8 0 0 (.cons (.mk 1 1 "d1" 1 3 1 .nil) .nil))
        (.cons (.mk 2 2 "d2" 1 3 1 .nil) .nil)) =
      rootOnlyProjection ⟨false, "", [], none, none, false, []⟩ false
        (.cons (.mk 10 1 "A" 8 0 0 (.cons (.mk 1 1 "d1" 1 3 1 .nil) .nil))
          (.cons (.mk 2 2 "d2" 1 3 1 .nil) .nil)) :=
  ⟨rfl,
   no_children_flattens_to_roots ⟨false, "", [], none, none, false, []⟩ false
     (.cons (.mk 10 1 "A" 8 0 0 (.cons (.mk 1 1 "d1" 1 3 1 .nil) .nil))
       (.cons (.mk 2 2 "d2" 1 3 1 .nil) .nil)) rfl⟩

theorem boolP_ite (p : ItemList → Bool) (b : Bool) (x y : ItemList)
    (hx : p x = true) (hy : p y = true) : p (if b then x else y) = true := by
  cases b <;> simp [hx, hy]

theorem noExMarkerB_appendI (ex : String) (xs ys : ItemList) :
    noExMarkerB ex (appendI xs ys) = (noExMarkerB ex xs && noExMarkerB ex ys) := by
  induction xs using noExMarkerB.induct ex with
  | case1 => simp [appendI, noExMarkerB]
  | case2 eid aid nm fl ni nin ch rest ih1 ih2 =>
      simp [appendI, noExMarkerB, ih2, Bool.and_assoc]

theorem noExMarkerB_single (ex : String) (eid aid : Nat) (nm : String)
    (fl : List String) (ni nin : Nat) (cr : ItemList)
    (h1 : (isMarkerNames fl && substrB ex nm) = false)
    (h2 : noExMarkerB ex cr = true) :
    noExMarkerB ex (.cons (.mk eid aid nm fl ni nin cr) .nil) = true := by
  simp [noExMarkerB, h1, h2]

theorem c2a_aux (cfg : Config) (ex : String) (hmem : ex ∈ cfg.exclude_markers) :
    (inM : Bool) → (F : ActionForest) →
      noExMarkerB ex (serialize_actions cfg inM F) = true
  | _, .nil => rfl
  | inM, .cons (.mk eid aid nm fl ni nin ch) rest => by
      have ihc := c2a_aux cfg ex hmem (childScope cfg inM nm fl) ch
      have ihr := c2a_aux cfg ex hmem inM rest
      rw [serialize_actions_cons, noExMarkerB_appendI, ihr, Bool.and_true]
      by_cases hexc : excludedB cfg nm fl
      · simp [serializeNode, hexc, noExMarkerB]
      · have hname : (isMarkerNames (serialize_flags fl) && substrB ex nm) = false := by
          rw [isMarkerNames_serialize]
          by_cases hmk : isMarkerB fl
          · have hne : cfg.exclude_markers.isEmpty = false := by
              cases hcm : cfg.exclude_markers with
              | nil => rw [hcm] at hmem; cases hmem
              | cons a l => simp
            have hExcEq : excludedB cfg nm fl
                = cfg.exclude_markers.any (fun e => substrB e nm) := by
              simp [excludedB, hne, hmk]
            have hany : cfg.exclude_markers.any (fun e => substrB e nm) = false := by
              rw [← hExcEq]
              simpa using hexc
            have hsub : substrB ex nm = false := by
              rw [List.any_eq_false] at hany
              simpa using hany ex hmem
            simp [hmk, hsub]
          · simp [hmk]
        by_cases hoa : cfg.only_actions && isMarkerB fl
        · by_cases hg : cfg.include_children && !isEmptyF ch
          · simp [serializeNode, hexc, hoa, hg, ihc]
          · simp [serializeNode, hexc, hoa, hg, noExMarkerB]
        · by_cases hfs : flagsSkipB cfg fl
          · simp [serializeNode, hexc, hoa, hfs, noExMarkerB]
          · by_cases hg : cfg.include_children && !isEmptyF ch
            · simp only [serializeNode, hexc, hoa, hfs, hg, Bool.false_eq_true,
                if_false, if_true]
              exact boolP_ite _ _ _ _
                (noExMarkerB_single ex eid aid nm (serialize_flags fl)
                  ni nin _ hname ihc) rfl
            · simp only [serializeNode, hexc, hoa, hfs, hg, Bool.false_eq_true,
                if_false, if_true]
              exact boolP_ite _ _ _ _
                (noExMarkerB_single ex eid aid nm (serialize_flags fl)
                  ni nin _ hname rfl) rfl

theorem isEmptyF_eq_nil : (F : ActionForest) → isEmptyF F = true → F = .nil
  | .nil, _ => rfl

theorem prune_aux (cfg : Config) :
    (inM : Bool) → (F : ActionForest) →
      serialize_actions cfg inM F = serialize_actions cfg inM (pruneExcluded cfg F)
  | _, .nil => rfl
  | inM, .cons (.mk eid aid nm fl ni nin ch) rest => by
      have ihc := prune_aux cfg (childScope cfg inM nm fl) ch
      have ihr := prune_aux cfg inM rest
      by_cases hexc : excludedB cfg nm fl
      · rw [serialize_actions_cons]
        simp only [pruneExcluded, hexc, if_true]
        simp [serializeNode, hexc, appendI, ihr]
      · rw [serialize_actions_cons]
        simp only [pruneExcluded, hexc, Bool.false_eq_true, if_false]
        rw [serialize_actions_cons, ihr]
        congr 1
        by_cases hic : cfg.include_children
        · cases ch with
          | nil => simp [pruneExcluded]
          | cons a l =>
              by_cases hpe : isEmptyF (pruneExcluded cfg (.cons a l))
              · have hnil : pruneExcluded cfg (.cons a l) = .nil :=
                  isEmptyF_eq_nil _ hpe
                have hser : serialize_actions cfg (childScope cfg inM nm fl)
                    (.cons a l) = .nil := by
                  rw [ihc, hnil]
                  rfl
                rw [hnil]
                simp [serializeNode, hic, isEmptyF_cons, isEmptyF_nil, hser]
              · simp only [Bool.not_eq_true] at hpe
                simp [serializeNode, hic, isEmptyF_cons, hpe, ihc]
        · simp [serializeNode, hic]

/-- The configuration with every optional filter unset and the service
default `include_children=True` (the defaults of
`ActionService.get_draw_calls`). -/
def cfgUnset : Config := ⟨true, "", [], none, none, false, []⟩

theorem isEmptyI_projectAll : (F : ActionForest) → isEmptyI (projectAll F) = isEmptyF F
  | .nil => rfl
  | .cons (.mk _ _ _ _ _ _ _) _ => rfl

theorem containsLeaf_ne_nil : (F : ActionForest) → containsLeaf F = true →
    isEmptyF F = false
  | .cons _ _, _ => rfl

theorem appendI_single (x : Item) (ys : ItemList) :
    appendI (.cons x .nil) ys = .cons x ys := rfl

theorem c3_aux : (inM : Bool) → (F : ActionForest) →
    allMarkersHaveLeaf F = true →
    serialize_actions cfgUnset inM F = projectAll F
  | _, .nil, _ => rfl
  | inM, .cons (.mk eid aid nm fl ni nin ch) rest, hgood => by
      simp only [allMarkersHaveLeaf, Bool.and_eq_true] at hgood
      obtain ⟨⟨hg1, hg2⟩, hg3⟩ := hgood
      have ihc := c3_aux (childScope cfgUnset inM nm fl) ch hg2
      have ihr := c3_aux inM rest hg3
      rw [serialize_actions_cons, ihr]
      have hex : excludedB cfgUnset nm fl = false := by simp [excludedB, cfgUnset]
      have hfs : flagsSkipB cfgUnset fl = false := by simp [flagsSkipB, cfgUnset]
      have hpm : ∀ b, passesMarkerB cfgUnset b = true := fun b => by
        simp [passesMarkerB, cfgUnset]
      have hoa : cfgUnset.only_actions = false := rfl
      have hic : cfgUnset.include_children = true := rfl
      have hir : inRangeB cfgUnset fl eid = true := by
        by_cases hm : isMarkerB fl <;> simp [inRangeB, cfgUnset, hm]
      have hcr : (if cfgUnset.include_children && !isEmptyF ch then
          serialize_actions cfgUnset (childScope cfgUnset inM nm fl) ch
          else .nil) = projectAll ch := by
        cases ch with
        | nil => simp [hic, isEmptyF_nil, projectAll]
        | cons a l => simpa [hic, isEmptyF_cons] using ihc
      simp only [serializeNode, hex, hfs, hoa, hir, hcr, Bool.false_eq_true,
        if_false, Bool.false_and, hpm, Bool.and_true, projectAll]
      by_cases hm : isMarkerB fl
      · have hcl : containsLeaf ch = true := by simpa [hm] using hg1
        have hpe : isEmptyI (projectAll ch) = false := by
          rw [isEmptyI_projectAll]
          exact containsLeaf_ne_nil ch hcl
        simp [hm, hpe, appendI_single]
      · simp [hm, appendI_single]

theorem c1_aux (cfg : Config) : (inM : Bool) → (F : ActionForest) →
    leafIds (serialize_actions {cfg with marker_filter := "", only_actions := false} inM F)
      = leafIds (serialize_actions {cfg with marker_filter := "", only_actions := true} inM F)
  | _, .nil => rfl
  | inM, .cons (.mk eid aid nm fl ni nin ch) rest => by
      have ihc := c1_aux cfg inM ch
      have ihr := c1_aux cfg inM rest
      rw [serialize_actions_cons, serialize_actions_cons, leafIds_appendI,
        leafIds_appendI, ihr]
      congr 1
      have hcsF : childScope {cfg with marker_filter := "", only_actions := false}
          inM nm fl = inM := by simp [childScope]
      have hcsT : childScope {cfg with marker_filter := "", only_actions := true}
          inM nm fl = inM := by simp [childScope]
      have hexF : excludedB {cfg with marker_filter := "", only_actions := false}
          nm fl = excludedB cfg nm fl := by simp [excludedB]
      have hexT : excludedB {cfg with marker_filter := "", only_actions := true}
          nm fl = excludedB cfg nm fl := by simp [excludedB]
      have hfsF : flagsSkipB {cfg with marker_filter := "", only_actions := false}
          fl = flagsSkipB cfg fl := by simp [flagsSkipB]
      have hfsT : flagsSkipB {cfg with marker_filter := "", only_actions := true}
          fl = flagsSkipB cfg fl := by simp [flagsSkipB]
      have hpmF : passesMarkerB {cfg with marker_filter := "", only_actions := false}
          inM = true := by simp [passesMarkerB]
      have hpmT : passesMarkerB {cfg with marker_filter := "", only_actions := true}
          inM = true := by simp [passesMarkerB]
      have hirF : inRangeB {cfg with marker_filter := "", only_actions := false}
          fl eid = inRangeB cfg fl eid := by simp [inRangeB]
      have hirT : inRangeB {cfg with marker_filter := "", only_actions := true}
          fl eid = inRangeB cfg fl eid := by simp [inRangeB]
      simp only [serializeNode, hcsF, hcsT, hexF, hexT, hfsF, hfsT, hpmF, hpmT,
        hirF, hirT, Bool.and_true, Bool.false_and, Bool.true_and]
      by_cases hexc : excludedB cfg nm fl
      · simp [hexc, leafIds]
      · simp only [hexc, Bool.false_eq_true, if_false]
        by_cases hm : isMarkerB fl
        · have hfs : flagsSkipB cfg fl = false := by simp [flagsSkipB, hm]
          simp only [hm, hfs, if_true, Bool.false_eq_true, if_false]
          by_cases hg : cfg.include_children && !isEmptyF ch
          · simp only [hg, if_true]
            by_cases hne : isEmptyI (serialize_actions
                {cfg with marker_filter := "", only_actions := false} inM ch)
            · have h0 : serialize_actions
                  {cfg with marker_filter := "", only_actions := false} inM ch
                  = .nil := isEmptyI_eq_nil _ hne
              have h0T : leafIds (serialize_actions
                  {cfg with marker_filter := "", only_actions := true} inM ch)
                  = [] := by rw [← ihc, h0]; rfl
              simp [hne, leafIds, h0T]
            · simp only [Bool.not_eq_true] at hne
              simp [hne, leafIds, isMarkerNames_serialize, hm, ihc]
          · simp [hg, leafIds, isEmptyI_nil]
        · simp only [hm, Bool.false_eq_true, if_false]
          by_cases hfs : flagsSkipB cfg fl
          · simp [hfs, leafIds]
          · simp only [hfs, Bool.false_eq_true, if_false]
            by_cases hsi : inRangeB cfg fl eid
            · by_cases hg : cfg.include_children && !isEmptyF ch
              · simp [hg, hsi, leafIds, isMarkerNames_serialize, hm, ihc]
              · simp [hg, hsi, leafIds, isMarkerNames_serialize, hm]
            · simp [hsi, leafIds]

/-- C1 counterexample: with `marker_filter` set to A, the hierarchical run
(`only_actions=false`) discards the draw eid 1 — its grandparent marker B
has surviving children but fails the scope gate — while the flattening run
(`only_actions=true`) keeps it, so the two leaf sets differ. -/
theorem only_actions_changes_leaf_set :
    leafIds (serialize_actions ⟨true, "A", [], none, none, false, []⟩ false
      (.cons (.mk 20 1 "B" 8 0 0
        (.cons (.mk 10 2 "A" 8 0 0 (.cons (.mk 1 1 "d" 1 0 0 .nil) .nil)) .nil))
        .nil)) = [] ∧
    leafIds (serialize_actions ⟨true, "A", [], none, none, true, []⟩ false
      (.cons (.mk 20 1 "B" 8 0 0
        (.cons (.mk 10 2 "A" 8 0 0 (.cons (.mk 1 1 "d" 1 0 0 .nil) .nil)) .nil))
        .nil)) = [1] := ⟨rfl, rfl⟩

/-- C1 (amended): when `marker_filter` is unset, `only_actions=true` leaves
the sequence of non-marker event ids of the output exactly as in the
`only_actions=false` run with identical other configuration — flattening
only removes marker wrappers.  (With `marker_filter` set the two runs can
differ: a non-matching marker outside the matching scope drops its
surviving children in the hierarchical run.) -/
theorem only_actions_preserves_leaf_set (cfg : Config) (inM : Bool)
    (F : ActionForest) :
    leafIds (serialize_actions
        {cfg with marker_filter := "", only_actions := false} inM F)
      = leafIds (serialize_actions
        {cfg with marker_filter := "", only_actions := true} inM F) :=
  c1_aux cfg inM F

/-- C2 counterexample: with `exclude_markers = ["Foo"]`, a non-marker leaf
named Foo still appears in the output — the literal claim that no node
named Foo ever appears is false. -/
theorem exclude_markers_leaf_counterexample :
    allNamesAvoidB "Foo" (serialize_actions ⟨true, "", ["Foo"], none, none, false, []⟩
      false (.cons (.mk 1 1 "Foo" 1 0 0 .nil) .nil)) = false := rfl

/-- C2 (amended to markers): when `ex` is one of the configured
`exclude_markers` substrings, no marker item whose name contains `ex`
appears anywhere in the output, and the output coincides with the output on
the forest from which every such marker subtree has been removed — so no
original descendant of a suppressed marker contributes anything. -/
theorem exclude_markers_suppresses_subtrees (cfg : Config) (inM : Bool)
    (F : ActionForest) (ex : String) (hmem : ex ∈ cfg.exclude_markers) :
    noExMarkerB ex (serialize_actions cfg inM F) = true ∧
    serialize_actions cfg inM F = serialize_actions cfg inM (pruneExcluded cfg F) :=
  ⟨c2a_aux cfg ex hmem inM F, prune_aux cfg inM F⟩

/-- Witness for C2 at a forest whose first root is a FooPass marker with a
child draw. -/
theorem exclude_markers_suppresses_subtrees_witness :
    "Foo" ∈ (⟨true, "", ["Foo"], none, none, false, []⟩ : Config).exclude_markers ∧
    (noExMarkerB "Foo" (serialize_actions ⟨true, "", ["Foo"], none, none, false, []⟩
        false (.cons (.mk 1 1 "FooPass" 8 0 0 (.cons (.mk 2 2 "d" 1 0 0 .nil) .nil))
          (.cons (.mk 3 3 "d3" 1 0 0 .nil) .nil))) = true ∧
      serialize_actions ⟨true, "", ["Foo"], none, none, false, []⟩ false
          (.cons (.mk 1 1 "FooPass" 8 0 0 (.cons (.mk 2 2 "d" 1 0 0 .nil) .nil))
            (.cons (.mk 3 3 "d3" 1 0 0 .nil) .nil)) =
        serialize_actions ⟨true, "", ["Foo"], none, none, false, []⟩ false
          (pruneExcluded ⟨true, "", ["Foo"], none, none, false, []⟩
            (.cons (.mk 1 1 "FooPass" 8 0 0 (.cons (.mk 2 2 "d" 1 0 0 .nil) .nil))
              (.cons (.mk 3 3 "d3" 1 0 0 .nil) .nil)))) :=
  ⟨by simp,
   exclude_markers_suppresses_subtrees ⟨true, "", ["Foo"], none, none, false, []⟩
     false (.cons (.mk 1 1 "FooPass" 8 0 0 (.cons (.mk 2 2 "d" 1 0 0 .nil) .nil))
       (.cons (.mk 3 3 "d3" 1 0 0 .nil) .nil)) "Foo" (by simp)⟩

/-- C3 counterexample: with every filter unset, a childless Push marker is
dropped from the output, so the projection is not isomorphic to the input
forest (one node of the forest has no image). -/
theorem unset_config_drops_childless_marker :
    serialize_actions cfgUnset false (.cons (.mk 5 1 "M" 8 0 0 .nil) .nil) =
      ItemList.nil ∧
    projectAll (.cons (.mk 5 1 "M" 8 0 0 .nil) .nil) =
      ItemList.cons (.mk 5 1 "M" ["PushMarker"] 0 0 .nil) .nil := ⟨rfl, rfl⟩

/-- C3 (amended): with every optional filter unset, and provided every
marker of the forest has at least one non-marker node in its subtree, the
output is the identity projection of the forest — same shape, same per-node
field values, no node dropped. -/
theorem unset_config_is_identity (inM : Bool) (F : ActionForest)
    (hgood : allMarkersHaveLeaf F = true) :
    serialize_actions cfgUnset inM F = projectAll F :=
  c3_aux inM F hgood

/-- Witness for C3 at a marker-with-draw forest plus a root draw. -/
theorem unset_config_is_identity_witness :
    allMarkersHaveLeaf (.cons (.mk 10 1 "A" 8 0 0
        (.cons (.mk 1 1 "d1" 1 3 1 .nil) .nil))
      (.cons (.mk 2 2 "d2" 1 3 1 .nil) .nil)) = true ∧
    serialize_actions cfgUnset false
        (.cons (.mk 10 1 "A" 8 0 0 (.cons (.mk 1 1 "d1" 1 3 1 .nil) .nil))
          (.cons (.mk 2 2 "d2" 1 3 1 .nil) .nil)) =
      projectAll (.cons (.mk 10 1 "A" 8 0 0 (.cons (.mk 1 1 "d1" 1 3 1 .nil) .nil))
        (.cons (.mk 2 2 "d2" 1 3 1 .nil) .nil)) :=
  ⟨rfl,
   unset_config_is_identity false
     (.cons (.mk 10 1 "A" 8 0 0 (.cons (.mk 1 1 "d1" 1 3 1 .nil) .nil))
       (.cons (.mk 2 2 "d2" 1 3 1 .nil) .nil)) rfl⟩
